import Mathlib

/-!
Verification of the sos-sas session adapter (`src/sos_sas/kernel.py`).

Python strings are modelled as `List Char`; Python's `str.split`,
`str.replace`, `in`, `str.startswith`, `str.count` and list slicing
are given executable counterparts below, and the adapter's operations
(`submit`, `parse_response`, `get_path_names`, `scp_tmp_file`,
`get_vars`, `put_vars`) are translated from the source.  Host-supplied
collaborators (response-retrieval callback, filesystem, table codec,
uuid generator, configuration) are abstracted into a `KernelEnv`
record of pure functions.
-/

namespace SosSas

/-- Python `str` modelled as a list of characters. -/
abbrev PyStr := List Char

/-- Coerce a Lean string literal to the `PyStr` model. -/
def toL (s : String) : PyStr := s.toList

/-- Python's substring test `pat in s`. -/
def containsSub (pat : PyStr) : PyStr → Bool
  | [] => pat.isEmpty
  | c :: rest => pat.isPrefixOf (c :: rest) || containsSub pat rest

/-- Fuelled worker for Python's `s.split(sep)` (non-overlapping,
left-to-right).  The fuel is an upper bound on the string length so the
definition is structural and kernel-reducible. -/
def pysplitF : Nat → PyStr → PyStr → List PyStr
  | _, _, [] => [[]]
  | 0, _, s => [s]
  | fuel+1, sep, c :: rest =>
    if sep.isPrefixOf (c :: rest) then
      [] :: pysplitF fuel sep (List.drop (sep.length - 1) rest)
    else
      (c :: (pysplitF fuel sep rest).headD []) :: (pysplitF fuel sep rest).tail

/-- Python `s.split(sep)` for a non-empty separator. -/
def pysplit (sep s : PyStr) : List PyStr := pysplitF s.length sep s

/-- Fuelled worker for Python's `s.replace(pat, rep)`. -/
def pyreplaceF : Nat → PyStr → PyStr → PyStr → PyStr
  | _, _, _, [] => []
  | 0, _, _, s => s
  | fuel+1, pat, rep, c :: rest =>
    if pat.isPrefixOf (c :: rest) then
      rep ++ pyreplaceF fuel pat rep (List.drop (pat.length - 1) rest)
    else
      c :: pyreplaceF fuel pat rep rest

/-- Python `s.replace(pat, rep)` for a non-empty pattern. -/
def pyreplace (pat rep s : PyStr) : PyStr := pyreplaceF s.length pat rep s

/-- The elements of a list at odd indices: Python's `xs[1::2]`. -/
def oddElems : List PyStr → List PyStr
  | [] => []
  | [_] => []
  | _ :: b :: rest => b :: oddElems rest

/-- Python `s.lower()` (ASCII, as used for table names). -/
def pyLower (s : PyStr) : PyStr := s.map Char.toLower

/-- Python `os.path.join` with two components, as used by `put_vars`. -/
def pathJoin (a b : PyStr) : PyStr :=
  if ['/'].isPrefixOf b then b
  else if a = [] then b
  else if a.getLastD ' ' = '/' then a ++ b
  else a ++ ['/'] ++ b

/-- Python `os.path.basename`, used for the secure-copy destination name. -/
def basename (p : PyStr) : PyStr := (pysplit ['/'] p).getLastD []

end SosSas

namespace SosSas

/-! Lemmas about the Python string primitives. -/

theorem isPrefixOf_append_self : ∀ (p l : PyStr), p.isPrefixOf (p ++ l) = true
  | [], _ => by simp [List.isPrefixOf]
  | c :: p, l => by simp [List.isPrefixOf, isPrefixOf_append_self p l]

/-- An occurrence at the front that fits inside the first component of an
append is an occurrence at the front of that component. -/
theorem isPrefixOf_shrink :
    ∀ (p x y : PyStr), p.isPrefixOf (x ++ y) = true → p.length ≤ x.length →
      p.isPrefixOf x = true
  | [], _, _, _, _ => by simp [List.isPrefixOf]
  | c :: p, [], y, _, hlen => by simp at hlen
  | c :: p, d :: x, y, hpre, hlen => by
    simp only [List.cons_append, List.isPrefixOf, Bool.and_eq_true] at hpre ⊢
    exact ⟨hpre.1, isPrefixOf_shrink p x y hpre.2 (by simpa using hlen)⟩

theorem containsSub_cons (pat : PyStr) (c : Char) (rest : PyStr) :
    containsSub pat (c :: rest) = (pat.isPrefixOf (c :: rest) || containsSub pat rest) := rfl

theorem containsSub_of_tail {pat : PyStr} {c : Char} {rest : PyStr}
    (h : containsSub pat rest = true) : containsSub pat (c :: rest) = true := by
  simp [containsSub_cons, h]

theorem pysplitF_congr (sep : PyStr) :
    ∀ (f g : Nat) (s : PyStr), s.length ≤ f → s.length ≤ g →
      pysplitF f sep s = pysplitF g sep s := by
  intro f
  induction f with
  | zero =>
    intro g s hf _
    have hs : s = [] := List.length_eq_zero.mp (Nat.le_zero.mp hf)
    subst hs
    cases g <;> rfl
  | succ f ih =>
    intro g s hf hg
    cases s with
    | nil => cases g <;> rfl
    | cons c rest =>
      cases g with
      | zero => simp at hg
      | succ g =>
        have hrf : rest.length ≤ f := by simpa using hf
        have hrg : rest.length ≤ g := by simpa using hg
        simp only [pysplitF]
        by_cases hp : sep.isPrefixOf (c :: rest) = true
        · rw [if_pos hp, if_pos hp]
          have hd := List.length_drop (sep.length - 1) rest
          rw [ih g (List.drop (sep.length - 1) rest) (by omega) (by omega)]
        · rw [if_neg hp, if_neg hp, ih g rest hrf hrg]

theorem pysplitF_eq_pysplit {sep : PyStr} {f : Nat} {s : PyStr} (h : s.length ≤ f) :
    pysplitF f sep s = pysplit sep s :=
  pysplitF_congr sep f s.length s h (Nat.le_refl _)

/-- If the separator does not occur in `s`, `split` returns `[s]`. -/
theorem pysplit_no_occurrence {sep : PyStr} :
    ∀ {s : PyStr}, containsSub sep s = false → pysplit sep s = [s] := by
  have core : ∀ (f : Nat) (s : PyStr), s.length ≤ f → containsSub sep s = false →
      pysplitF f sep s = [s] := by
    intro f
    induction f with
    | zero =>
      intro s hf _
      have hs : s = [] := List.length_eq_zero.mp (Nat.le_zero.mp hf)
      subst hs; rfl
    | succ f ih =>
      intro s hf hc
      cases s with
      | nil => rfl
      | cons c rest =>
        rw [containsSub_cons] at hc
        have hp : sep.isPrefixOf (c :: rest) = false := by
          cases h : sep.isPrefixOf (c :: rest)
          · rfl
          · rw [h] at hc; simp at hc
        have hr : containsSub sep rest = false := by
          cases h : containsSub sep rest
          · rfl
          · rw [h] at hc; simp at hc
        simp only [pysplitF]
        rw [if_neg (by simp [hp]), ih rest (by simpa using hf) hr]
        rfl
  intro s hc
  exact core s.length s (Nat.le_refl _) hc

/-- Splitting an explicit clean occurrence: if the separator's first
occurrence in `a ++ sep ++ b` is the displayed one, the split peels `a`
off and continues in `b`.  The hypothesis says the separator does not
occur in `a ++ sep.dropLast`, which rules out any occurrence starting
before position `a.length`. -/
theorem pysplit_append {sep : PyStr} (hsep : sep ≠ []) :
    ∀ (a b : PyStr), containsSub sep (a ++ sep.dropLast) = false →
      pysplit sep (a ++ (sep ++ b)) = a :: pysplit sep b := by
  have hsl : 0 < sep.length := List.length_pos.mpr hsep
  have core : ∀ (f : Nat) (a b : PyStr), (a ++ (sep ++ b)).length ≤ f →
      containsSub sep (a ++ sep.dropLast) = false →
      pysplitF f sep (a ++ (sep ++ b)) = a :: pysplit sep b := by
    intro f
    induction f with
    | zero =>
      intro a b hf _
      rw [List.length_append, List.length_append] at hf
      omega
    | succ f ih =>
      intro a b hf hc
      cases a with
      | nil =>
        obtain ⟨d, sep', hd⟩ : ∃ d sep', sep = d :: sep' := by
          cases sep with
          | nil => exact absurd rfl hsep
          | cons d sep' => exact ⟨d, sep', rfl⟩
        subst hd
        simp only [List.nil_append, List.cons_append] at hf ⊢
        have hcond : (d :: sep').isPrefixOf (d :: (sep' ++ b)) = true := by
          exact isPrefixOf_append_self (d :: sep') b
        simp only [pysplitF]
        rw [if_pos hcond]
        have hdrop : List.drop ((d :: sep').length - 1) (sep' ++ b) = b := by
          have h1 : (d :: sep').length - 1 = sep'.length := by simp
          rw [h1, List.drop_left]
        rw [hdrop]
        have hble : b.length ≤ f := by
          rw [List.length_cons, List.length_append] at hf
          omega
        rw [pysplitF_eq_pysplit hble]
      | cons c a' =>
        simp only [List.cons_append] at hf hc ⊢
        have hp : sep.isPrefixOf (c :: (a' ++ (sep ++ b))) = false := by
          cases h : sep.isPrefixOf (c :: (a' ++ (sep ++ b)))
          · rfl
          · exfalso
            have hlast := List.dropLast_append_getLast hsep
            have hsb : sep ++ b = sep.dropLast ++ (sep.getLast hsep :: b) := by
              conv_lhs => rw [← hlast]
              simp [List.append_assoc]
            have hx : c :: (a' ++ (sep ++ b)) =
                (c :: (a' ++ sep.dropLast)) ++ (sep.getLast hsep :: b) := by
              rw [hsb]; simp [List.append_assoc]
            rw [hx] at h
            have hfit : sep.length ≤ (c :: (a' ++ sep.dropLast)).length := by
              have hld : sep.dropLast.length = sep.length - 1 := List.length_dropLast sep
              simp only [List.length_cons, List.length_append, hld]
              omega
            have hpre := isPrefixOf_shrink sep _ _ h hfit
            have hct : containsSub sep (c :: (a' ++ sep.dropLast)) = true := by
              rw [containsSub_cons, hpre]
              simp
            rw [hct] at hc
            simp at hc
        have hc' : containsSub sep (a' ++ sep.dropLast) = false := by
          cases h : containsSub sep (a' ++ sep.dropLast)
          · rfl
          · have hct := containsSub_of_tail (c := c) h
            rw [hct] at hc
            simp at hc
        have hlf : (a' ++ (sep ++ b)).length ≤ f := by
          rw [List.length_cons] at hf
          omega
        simp only [pysplitF]
        rw [if_neg (by simp [hp]), ih a' b hlf hc']
        rfl
  intro a b hc
  exact core (a ++ (sep ++ b)).length a b (Nat.le_refl _) hc

/-- The head of a single-character split is the longest separator-free
leading segment. -/
theorem pysplit_head_single (c : Char) (s : PyStr) :
    (pysplit [c] s).headD [] = s.takeWhile (fun x => x != c) := by
  have core : ∀ (f : Nat) (s : PyStr), s.length ≤ f →
      (pysplitF f [c] s).headD [] = s.takeWhile (fun x => x != c) := by
    intro f
    induction f with
    | zero =>
      intro s hf
      have hs : s = [] := List.length_eq_zero.mp (Nat.le_zero.mp hf)
      subst hs; rfl
    | succ f ih =>
      intro s hf
      cases s with
      | nil => rfl
      | cons d rest =>
        have hpre : ([c].isPrefixOf (d :: rest)) = (c == d) := by
          simp [List.isPrefixOf]
        simp only [pysplitF, hpre]
        by_cases hcd : (c == d) = true
        · rw [if_pos hcd]
          have hdc : (d != c) = false := by
            have := eq_of_beq hcd
            simp [bne, this]
          simp [List.takeWhile, hdc]
        · rw [if_neg hcd]
          have hdc : (d != c) = true := by
            have : ¬ c = d := fun h => hcd (beq_iff_eq.mpr h)
            simp [bne]
            exact fun h => this h.symm
          simp only [List.headD_cons, List.takeWhile, hdc]
          rw [ih rest (by simpa using hf)]
  exact core s.length s (Nat.le_refl _)

/-- A `takeWhile` over an append whose first component satisfies the
predicate and whose second component starts with a failing element. -/
theorem takeWhile_append_stop {p : Char → Bool} :
    ∀ (xs : PyStr) (y : Char) (ys : PyStr), (∀ x ∈ xs, p x = true) → p y = false →
      (xs ++ y :: ys).takeWhile p = xs := by
  intro xs
  induction xs with
  | nil => intro y ys _ hy; simp [List.takeWhile, hy]
  | cons x xs ih =>
    intro y ys hall hy
    have hx : p x = true := hall x (by simp)
    rw [List.cons_append, List.takeWhile_cons, if_pos hx,
      ih y ys (fun z hz => hall z (by simp [hz])) hy]

/-! Data model. -/

/-- A column label of a host-namespace table: either already a string or
a non-string label together with its string form (`str(x)`). -/
inductive ColLabel
  | str (s : PyStr)
  | other (reprStr : PyStr)
deriving DecidableEq

/-- The string form of a column label. -/
def labelStr : ColLabel → PyStr
  | .str s => s
  | .other r => r

/-- An in-memory two-dimensional labeled table (pandas DataFrame),
abstracted to its column labels plus an identity token. -/
structure DataFrame where
  cols : List ColLabel
  id : Nat
deriving DecidableEq

/-- A value in the host namespace (`env.sos_dict`): either a table or a
non-table value, recorded with its class name. -/
inductive PyValue
  | df (d : DataFrame)
  | other (className : PyStr)

/-- One `(kind, payload)` message returned by the host's
response-retrieval callback; `html` models `payload['data']['text/html']`. -/
structure Msg where
  kind : PyStr
  html : PyStr

/-- The `{'LOG': ..., 'LST': ...}` pair produced by `submit` and
`parse_response`. -/
structure LogLst where
  LOG : PyStr
  LST : PyStr
deriving DecidableEq

/-- The session's mutable state: the fake `stdin` pending-input buffer. -/
structure SessionSt where
  stdinBuf : PyStr
deriving DecidableEq

/-- The fields of `SASconfigSTDIO` used by `scp_tmp_file`. -/
structure SasCfg where
  ssh : PyStr
  identity : Option PyStr
  port : Option PyStr
  host : PyStr

/-- Outcome of one `pd.read_sas` call. -/
inductive ReadRes
  | ok (d : DataFrame)
  | unicodeError
  | err (msg : PyStr)

/-- Outcome of `scp_tmp_file`.  `retErr` models the source's
`return RuntimeError(...)` — the error object handed back as an ordinary
return value — while `raiseErr` models `raise RuntimeError(...)`. -/
inductive ScpRes
  | retErr (msg : PyStr)
  | raiseErr (msg : PyStr)
  | okFile (path : PyStr)
deriving DecidableEq

/-- A Python exception escaping to `put_vars`' per-item handler. -/
inductive PyExn
  | valueError (msg : PyStr)
deriving DecidableEq

deriving instance DecidableEq for Except

/-- The host-supplied collaborators and process-wide configuration, as
pure functions: the response-retrieval callback, `os.path.isfile`, the
post-`subprocess.call` existence check for the secure-copy destination,
the table codec `pd.read_sas` (second argument: whether the utf-8
encoding is requested), the per-item uuid generator, the connection
mode, the STDIO configuration, the debug flag and the host namespace. -/
structure KernelEnv where
  get_response : PyStr → List Msg
  isfile : PyStr → Bool
  scp_outcome : List PyStr → Bool
  read_sas : PyStr → Bool → ReadRes
  uuid : Nat → PyStr
  mode : PyStr
  sascfg : SasCfg
  debug : Bool
  sos_dict : PyStr → PyValue

/-! Operations, translated from `src/sos_sas/kernel.py`. -/

/-- The list comprehension in `submit`: the `text/html` bodies of the
`execute_result` messages, then `res[0] if res else ''`. -/
def extract_html (response : List Msg) : PyStr :=
  (((response.filter (fun m => decide (m.kind = toL "execute_result"))).map Msg.html).headD [])

/-- The observable outcome of one `submit` call: the code string handed
to the host callback, the returned `{LOG, LST}` pair, and the session
state afterwards. -/
structure SubmitOut where
  sent : PyStr
  result : LogLst
  st : SessionSt
deriving DecidableEq

/-- The method `sos_SAS.submit`: concatenate the buffered stdin with `code`, clear
the buffer, call the host callback, extract the first
`execute_result` HTML body (or `''`), and return it as both LOG and
LST. -/
def submit (env : KernelEnv) (st : SessionSt) (code : PyStr) : SubmitOut :=
  let sas_code := st.stdinBuf ++ code
  let res := extract_html (env.get_response sas_code)
  { sent := sas_code, result := { LOG := res, LST := res }, st := { stdinBuf := [] } }

/-- The write `self.stdin.write`: append to the pending-input buffer. -/
def stdin_write (st : SessionSt) (s : PyStr) : SessionSt :=
  { stdinBuf := st.stdinBuf ++ s }

/-- A sequence of buffer writes in order. -/
def writeAll (st : SessionSt) (ws : List PyStr) : SessionSt :=
  ws.foldl stdin_write st

/-- The per-fragment accumulation of `parse_response`, processing the
fragments of `html.split('</span>')` in order. -/
def parse_fragments : List PyStr → LogLst
  | [] => { LOG := [], LST := [] }
  | line :: rest =>
    let r := parse_fragments rest
    if containsSub (toL "class=\"err\"") line then
      { r with LOG := (pyreplace (toL "<span class=\"err\">") []
          (pyreplace (toL "<br>") (toL "\n") line)) ++ toL " " ++ r.LOG }
    else if containsSub (toL "class=\"s\"") line then
      { r with LST := (pyreplace (toL "<span class=\"s\">") []
          (pyreplace (toL "<br>") (toL "\n") line)) ++ toL " " ++ r.LST }
    else r

/-- The method `sos_SAS.parse_response`: separate an HTML response into LOG
(error-styled spans) and LST (plain-output-styled spans). -/
def parse_response (html : PyStr) : LogLst :=
  parse_fragments (pysplit (toL "</span>") html)

/-- The HTML entity for a single quote (`&#39;`), the quote convention
of the bracketed list syntax in the raw LST text. -/
def qEnt : PyStr := toL "&#39;"

/-- The method `sos_SAS.get_path_names`: extract the candidate library paths from
the LST text, given the injected marker token. -/
def get_path_names (LST temp_name : PyStr) : List PyStr :=
  let path_name := ((pysplit ['<'] ((pysplit (temp_name ++ ['=']) LST).getLastD [])).headD [])
  if !(['('].isPrefixOf path_name) then [path_name]
  else
    (oddElems (pysplit qEnt
      ((pysplit [')'] ((pysplit (temp_name ++ ['=', '(']) LST).getLastD [])).headD []))).reverse

/-- The method `sos_SAS.scp_tmp_file`: derive the secure-copy program from the
remote-shell program, check it exists, build the copy command, run it,
and check the destination file was created. -/
def scp_tmp_file (env : KernelEnv) (filename temp_name : PyStr) : ScpRes :=
  let pgm := pyreplace (toL "ssh") (toL "scp") env.sascfg.ssh
  if !(env.isfile pgm) then
    .retErr (pgm ++ toL " command not found")
  else
    let dest_file := temp_name ++ ['_'] ++ basename filename
    let params := [pgm]
      ++ (match env.sascfg.identity with | some i => [toL "-i", i] | none => [])
      ++ (match env.sascfg.port with | some p => [toL "-P", p] | none => [])
      ++ (match env.sascfg.identity with | some i => [toL "-i", i] | none => [])
      ++ [env.sascfg.host ++ [':'] ++ filename, dest_file]
    if !(env.scp_outcome params) then
      .raiseErr (toL "Failed to retrieve " ++ filename ++ toL " from " ++ env.sascfg.host
        ++ toL " with command " ++ List.intercalate [' '] params)
    else
      .okFile dest_file

/-- The warning emitted by `get_vars` for a non-DataFrame value. -/
def nonDFMsg (name className : PyStr) : PyStr :=
  toL "Cannot transfer a non DataFrame object " ++ name ++ toL " of type "
    ++ className ++ toL " to SAS"

/-- The observable outcome of `get_vars`: the warnings emitted and the
`dataframe2sasdata(data, name, "")` conversion calls performed, in
order. -/
structure GetVarsOut where
  warnings : List PyStr
  calls : List (DataFrame × PyStr)
deriving DecidableEq

/-- The method `sos_SAS.get_vars`: for each name, skip non-DataFrame values
(warning only in debug mode), otherwise rename all column labels to
their string form and hand the table to `dataframe2sasdata`. -/
def get_vars (env : KernelEnv) : List PyStr → GetVarsOut
  | [] => { warnings := [], calls := [] }
  | name :: rest =>
    let r := get_vars env rest
    match env.sos_dict name with
    | .other className =>
      if env.debug then
        { r with warnings := nonDFMsg name className :: r.warnings }
      else r
    | .df d =>
      let data : DataFrame := { cols := d.cols.map (fun x => .str (labelStr x)), id := d.id }
      { r with calls := (data, name) :: r.calls }

/-- The probe statement injected into the pending-input buffer by
`put_vars`: `%put {temp_name}=%sysfunc(pathname({libname}));\n`. -/
def probeCode (temp_name libname : PyStr) : PyStr :=
  toL "%put " ++ temp_name ++ toL "=%sysfunc(pathname(" ++ libname ++ toL "));\n"

/-- The `ValueError` message for a malformed dataset name. -/
def namingErrMsg (item : PyStr) : PyStr :=
  toL "Name of SAS datasets can only be name or libname.name: " ++ item ++ toL " specified"

/-- The per-item warning emitted by `put_vars`' exception handler. -/
def failMsg (item e : PyStr) : PyStr :=
  toL "Failed to get dataset " ++ item ++ toL " from SAS: " ++ e

/-- The warning emitted when no candidate path yields the data file. -/
def noAccessMsg : PyStr :=
  toL "Failed to access SAS data file. This version of sos-sas only\n                        support retrieving datasets from SAS servers that share the\n                        same file system as the Jupyter server, or accessed with a SSH\n                        connection."

/-- The call `pd.read_sas(path, encoding='utf-8')` with the
`except UnicodeDecodeError` retry without an encoding; any other
failure of either call is caught by the per-path handler
(`none` = continue with the next path). -/
def tryRead (env : KernelEnv) (path : PyStr) : Option DataFrame :=
  match env.read_sas path true with
  | .ok d => some d
  | .unicodeError =>
    match env.read_sas path false with
    | .ok d => some d
    | _ => none
  | .err _ => none

/-- The `for path_name in path_names` loop of `put_vars`: local read if
the file exists, secure-copy retrieval in SSH mode, otherwise try the
next path; every per-path exception is caught and means "continue".
A `retErr` from `scp_tmp_file` is the returned `RuntimeError` object:
passing it to `pd.read_sas` raises, which the per-path handler
catches. -/
def tryPaths (env : KernelEnv) (data temp_name : PyStr) : List PyStr → Option DataFrame
  | [] => none
  | path_name :: rest =>
    let data_file := pathJoin path_name (pyLower data ++ toL ".sas7bdat")
    if env.isfile data_file then
      match tryRead env data_file with
      | some d => some d
      | none => tryPaths env data temp_name rest
    else if env.mode = toL "SSH" then
      match scp_tmp_file env data_file temp_name with
      | .okFile local_data_file =>
        match tryRead env local_data_file with
        | some d => some d
        | none => tryPaths env data temp_name rest
      | _ => tryPaths env data temp_name rest
    else
      tryPaths env data temp_name rest

/-- The tail of the per-item body once the optional `library.table`
qualifier is parsed: append the probe statement to the pending-input
buffer, call `submit` with no additional code, run the LST through
`get_path_names` and try the candidate paths in order; if none yields a
table, emit the unsupported-topology warning. -/
def itemCoreGo (env : KernelEnv) (temp_name buf libname data : PyStr) :
    Except PyExn (PyStr × Option DataFrame × List PyStr) :=
  let buf1 := buf ++ probeCode temp_name libname
  let out := submit env { stdinBuf := buf1 } []
  let path_names := get_path_names out.result.LST temp_name
  match tryPaths env data temp_name path_names with
  | some d => .ok (out.st.stdinBuf, some d, [])
  | none => .ok (out.st.stdinBuf, none, [noAccessMsg])

/-- The body of `put_vars`' per-item `try`: validate the
`library.table` qualifier, write the probe into the buffer, `submit`,
resolve the candidate paths, and try them in order.  Returns the new
buffer, the retrieved table (if any) and the warnings emitted inside
the body; a `ValueError` escapes to the per-item handler. -/
def itemBody (env : KernelEnv) (temp_name buf item : PyStr) :
    Except PyExn (PyStr × Option DataFrame × List PyStr) :=
  if '.' ∈ item then
    if 1 < item.count '.' then
      .error (.valueError (namingErrMsg item))
    else
      itemCoreGo env temp_name buf (item.takeWhile (fun c => c != '.'))
        ((item.dropWhile (fun c => c != '.')).drop 1)
  else
    itemCoreGo env temp_name buf (toL "work") item

/-- The state threaded through `put_vars`: the pending-input buffer, the
result mapping `res` (a Python dict in insertion order) and the
warnings emitted so far. -/
structure PutSt where
  buf : PyStr
  res : List (PyStr × DataFrame)
  warnings : List PyStr
deriving DecidableEq

/-- Python dict assignment `res[k] = v`: overwrite in place or append. -/
def upsert (k : PyStr) (v : DataFrame) : List (PyStr × DataFrame) → List (PyStr × DataFrame)
  | [] => [(k, v)]
  | (k', v') :: rest => if k' = k then (k, v) :: rest else (k', v') :: upsert k v rest

/-- One iteration of the `put_vars` loop: run the per-item body inside
the `try`, fold its outcome into the threaded state.  A caught
exception appends one warning naming the item and the error; a success
stores the table under the item name with `.` replaced by `_`. -/
def putStep (env : KernelEnv) (temp_name : PyStr) (st : PutSt) (item : PyStr) : PutSt :=
  match itemBody env temp_name st.buf item with
  | .error (.valueError m) =>
    { st with warnings := st.warnings ++ [failMsg item m] }
  | .ok (buf', d?, ws) =>
    { buf := buf',
      res := match d? with
             | some d => upsert (pyreplace ['.'] ['_'] item) d st.res
             | none => st.res,
      warnings := st.warnings ++ ws }

/-- The `for idx, item in enumerate(items)` loop of `put_vars`, with the
per-item `try`/`except` boundary: a caught exception adds one warning
and the loop continues with the next item. -/
def put_varsAux (env : KernelEnv) : Nat → PutSt → List PyStr → PutSt
  | _, st, [] => st
  | idx, st, item :: rest => put_varsAux env (idx + 1) (putStep env (env.uuid idx) st item) rest

/-- The method `sos_SAS.put_vars`, starting from a given pending-input buffer with
an empty result mapping. -/
def put_vars (env : KernelEnv) (buf : PyStr) (items : List PyStr) : PutSt :=
  put_varsAux env 0 { buf := buf, res := [], warnings := [] } items

/-! Theorems about the Path Resolver (`get_path_names`).

The spec's value after the marker is captured as a separate definition
(`specRawValue`, following the spec's words: the text after the FIRST
occurrence of `marker=` up to the first angle bracket) so that the
claims that refer to the first occurrence can be compared with the
source's behaviour, which takes the text after the LAST occurrence. -/

/-- The text after the first occurrence of `pat` in `s` ([] if absent). -/
def afterFirst (pat : PyStr) : PyStr → PyStr
  | [] => []
  | c :: rest =>
    if pat.isPrefixOf (c :: rest) then List.drop pat.length (c :: rest)
    else afterFirst pat rest

/-- Modelled from the spec: the raw captured value of the Path Resolver,
"the text after [the first occurrence of `marker=`] up to the first
angle-bracket character". -/
def specRawValue (M LST : PyStr) : PyStr :=
  (afterFirst (M ++ ['=']) LST).takeWhile (fun x => x != '<')

theorem getLastD_pair (x y : PyStr) : ([x, y] : List PyStr).getLastD [] = y := rfl

theorem getLastD_single (x : PyStr) : ([x] : List PyStr).getLastD [] = x := rfl

/-- Claim C3 (counterexample): with `marker=` absent from the LST text
the Path Resolver does not return an empty sequence — on LST `"hi"`
and marker `"m"` it returns the one-element sequence `["hi"]`. -/
theorem claimC3_counterexample :
    containsSub (toL "m=") (toL "hi") = false ∧
      get_path_names (toL "hi") (toL "m") ≠ ([] : List PyStr) := by
  constructor
  · decide
  · decide

/-- Claim C3 (amended): if `marker=` does not occur in the LST text,
the Path Resolver treats the whole LST text (up to the first angle
bracket) as the raw value; when that value does not start with `(` it
returns it as a one-element sequence — not the empty sequence. -/
theorem claimC3 (LST M : PyStr)
    (hno : containsSub (M ++ ['=']) LST = false)
    (hpar : (['('].isPrefixOf (LST.takeWhile (fun x => x != '<'))) = false) :
    get_path_names LST M = [LST.takeWhile (fun x => x != '<')] := by
  simp only [get_path_names]
  rw [pysplit_no_occurrence hno, getLastD_single, pysplit_head_single, hpar]
  simp

/-- Witness for C3 at LST `"hello"`, marker `"t"`. -/
theorem claimC3_witness :
    containsSub (toL "t=") (toL "hello") = false ∧
      (['('].isPrefixOf ((toL "hello").takeWhile (fun x => x != '<'))) = false ∧
      get_path_names (toL "hello") (toL "t") =
        [(toL "hello").takeWhile (fun x => x != '<')] :=
  ⟨by decide, by decide, claimC3 (toL "hello") (toL "t") (by decide) (by decide)⟩

/-- Claim C5 (counterexample): when `marker=` occurs twice, the Path
Resolver does not return the text after the FIRST occurrence: on LST
`"m=a<m=b<"` with marker `"m"` the spec's raw value is `"a"`, but the
code returns `["b"]` — the text after the LAST occurrence up to the
first angle bracket. -/
theorem claimC5_counterexample :
    containsSub (toL "m=") (toL "m=a<m=b<") = true ∧
      specRawValue (toL "m") (toL "m=a<m=b<") = toL "a" ∧
      (['('].isPrefixOf (specRawValue (toL "m") (toL "m=a<m=b<"))) = false ∧
      get_path_names (toL "m=a<m=b<") (toL "m") = [toL "b"] ∧
      get_path_names (toL "m=a<m=b<") (toL "m") ≠
        [specRawValue (toL "m") (toL "m=a<m=b<")] := by
  refine ⟨by decide, by decide, by decide, by decide, by decide⟩

/-- The string `s0 ++ sep ++ s1 ++ sep ++ ... ++ sep ++ rest`: one
separator occurrence per segment, the displayed final occurrence being
the last one in the string. -/
def sepJoin (sep : PyStr) : List PyStr → PyStr → PyStr
  | [], rest => rest
  | p :: ps, rest => p ++ (sep ++ sepJoin sep ps rest)

/-- Splitting a string with an arbitrary number of clean separator
occurrences: the fragments are the segments followed by the tail after
the last occurrence. -/
theorem pysplit_sepJoin {sep : PyStr} (hsep : sep ≠ []) :
    ∀ (segs : List PyStr) (rest : PyStr),
      (∀ p ∈ segs, containsSub sep (p ++ sep.dropLast) = false) →
      containsSub sep rest = false →
      pysplit sep (sepJoin sep segs rest) = segs ++ [rest] := by
  intro segs
  induction segs with
  | nil =>
    intro rest _ hrest
    exact pysplit_no_occurrence hrest
  | cons p ps ih =>
    intro rest hsegs hrest
    show pysplit sep (p ++ (sep ++ sepJoin sep ps rest)) = (p :: ps) ++ [rest]
    rw [pysplit_append hsep p (sepJoin sep ps rest) (hsegs p (List.mem_cons_self ..)),
      ih rest (fun q hq => hsegs q (List.mem_cons_of_mem _ hq)) hrest]
    rfl

/-- Claim C5 (amended): for every LST text in which `marker=` occurs —
any number of times — the Path Resolver returns exactly one path equal
to the text after the LAST occurrence of `marker=` up to the first
angle-bracket character (provided that text does not begin with `(`).
The LST is decomposed as `s0 ++ marker= ++ s1 ++ marker= ++ ... ++
marker= ++ rest` with one clean occurrence per segment (`segs ≠ []`, so
the marker occurs at least once; earlier occurrences, such as the
echoed probe code, are allowed) and none in the tail `rest`, so the
displayed final occurrence is the last one. -/
theorem claimC5 (M : PyStr) (segs : List PyStr) (rest : PyStr)
    (_hocc : segs ≠ [])
    (hsegs : ∀ p ∈ segs, containsSub (M ++ ['=']) (p ++ M) = false)
    (h2 : containsSub (M ++ ['=']) rest = false)
    (h3 : (['('].isPrefixOf (rest.takeWhile (fun x => x != '<'))) = false) :
    get_path_names (sepJoin (M ++ ['=']) segs rest) M =
      [rest.takeWhile (fun x => x != '<')] := by
  have hsep : (M ++ ['=']) ≠ [] := by simp
  have hdl : (M ++ ['=']).dropLast = M := List.dropLast_concat ..
  have hsegs' : ∀ p ∈ segs, containsSub (M ++ ['=']) (p ++ (M ++ ['=']).dropLast) = false := by
    intro p hp
    rw [hdl]
    exact hsegs p hp
  have hsplit : pysplit (M ++ ['=']) (sepJoin (M ++ ['=']) segs rest) = segs ++ [rest] :=
    pysplit_sepJoin hsep segs rest hsegs' h2
  simp only [get_path_names]
  rw [hsplit, List.getLastD_concat, pysplit_head_single, h3]
  simp

/-- Witness for C5 on an LST with TWO occurrences of the marker (the
echoed probe plus the answer): `"x m=a<y m=/lib<tail"`, marker `"m"` —
the result is the text after the last occurrence, `"/lib"`. -/
theorem claimC5_witness :
    ([toL "x ", toL "a<y "] : List PyStr) ≠ [] ∧
      (∀ p ∈ ([toL "x ", toL "a<y "] : List PyStr),
        containsSub (toL "m" ++ ['=']) (p ++ toL "m") = false) ∧
      containsSub (toL "m" ++ ['=']) (toL "/lib<tail") = false ∧
      (['('].isPrefixOf ((toL "/lib<tail").takeWhile (fun x => x != '<'))) = false ∧
      get_path_names (sepJoin (toL "m" ++ ['=']) [toL "x ", toL "a<y "] (toL "/lib<tail"))
          (toL "m") =
        [(toL "/lib<tail").takeWhile (fun x => x != '<')] :=
  ⟨by decide, by decide, by decide, by decide,
    claimC5 (toL "m") [toL "x ", toL "a<y "] (toL "/lib<tail")
      (by decide) (by decide) (by decide) (by decide)⟩

/-- The quoted body of a bracketed three-path library definition:
`'A' 'B' 'C'` with HTML-escaped quotes and arbitrary inter-path
separator text `S1`, `S2`. -/
def mpBody (A S1 B S2 C : PyStr) : PyStr :=
  qEnt ++ A ++ qEnt ++ S1 ++ qEnt ++ B ++ qEnt ++ S2 ++ qEnt ++ C ++ qEnt

/-- An LST text containing a bracketed multi-path library definition
`marker=('A' 'B' 'C')` after the marker token. -/
def mpLST (pre M A S1 B S2 C post : PyStr) : PyStr :=
  pre ++ M ++ ['=', '('] ++ mpBody A S1 B S2 C ++ [')'] ++ post

/-- The quote-convention split of a three-path body. -/
theorem pysplit_mpBody (A S1 B S2 C : PyStr)
    (hA : containsSub qEnt (A ++ qEnt.dropLast) = false)
    (hS1 : containsSub qEnt (S1 ++ qEnt.dropLast) = false)
    (hB : containsSub qEnt (B ++ qEnt.dropLast) = false)
    (hS2 : containsSub qEnt (S2 ++ qEnt.dropLast) = false)
    (hC : containsSub qEnt (C ++ qEnt.dropLast) = false) :
    pysplit qEnt (mpBody A S1 B S2 C) = [[], A, S1, B, S2, C, []] := by
  have hqne : qEnt ≠ [] := by decide
  have hq0 : containsSub qEnt ([] ++ qEnt.dropLast) = false := by decide
  have e : mpBody A S1 B S2 C =
      [] ++ (qEnt ++ (A ++ (qEnt ++ (S1 ++ (qEnt ++ (B ++ (qEnt ++ (S2 ++ (qEnt ++ (C ++ (qEnt ++ ([] : PyStr)))))))))))) := by
    simp [mpBody]
  rw [e]
  rw [pysplit_append hqne [] (A ++ (qEnt ++ (S1 ++ (qEnt ++ (B ++ (qEnt ++ (S2 ++ (qEnt ++ (C ++ (qEnt ++ ([] : PyStr))))))))))) hq0]
  rw [pysplit_append hqne A (S1 ++ (qEnt ++ (B ++ (qEnt ++ (S2 ++ (qEnt ++ (C ++ (qEnt ++ ([] : PyStr))))))))) hA]
  rw [pysplit_append hqne S1 (B ++ (qEnt ++ (S2 ++ (qEnt ++ (C ++ (qEnt ++ ([] : PyStr))))))) hS1]
  rw [pysplit_append hqne B (S2 ++ (qEnt ++ (C ++ (qEnt ++ ([] : PyStr))))) hB]
  rw [pysplit_append hqne S2 (C ++ (qEnt ++ ([] : PyStr))) hS2]
  rw [pysplit_append hqne C ([] : PyStr) hC]
  rfl

/-- When the captured raw value starts with `(`, `get_path_names` takes
the bracketed-list branch. -/
theorem get_path_names_bracket (LST temp_name : PyStr)
    (h : (['('].isPrefixOf ((pysplit ['<'] ((pysplit (temp_name ++ ['=']) LST).getLastD [])).headD [])) = true) :
    get_path_names LST temp_name =
      (oddElems (pysplit qEnt
        ((pysplit [')'] ((pysplit (temp_name ++ ['=', '(']) LST).getLastD [])).headD []))).reverse := by
  simp only [get_path_names]
  rw [h]
  rfl

/-- Claim C4: for an LST text containing a bracketed multi-path library
definition with quoted paths `A`, `B`, `C` declared in that order after
the marker token, the Path Resolver returns `[C, B, A]` — the contained
paths in reverse declaration order.  The hypotheses state
well-formedness: the marker does not reoccur elsewhere, the quote
entity does not occur inside a path or separator, and no path or
separator contains the closing bracket. -/
theorem claimC4 (M pre post A S1 B S2 C : PyStr)
    (h1 : containsSub (M ++ ['=']) (pre ++ M) = false)
    (h2 : containsSub (M ++ ['=']) (['('] ++ (mpBody A S1 B S2 C ++ (')' :: post))) = false)
    (h3 : containsSub (M ++ ['=', '(']) (pre ++ (M ++ ['='])) = false)
    (h4 : containsSub (M ++ ['=', '(']) (mpBody A S1 B S2 C ++ (')' :: post)) = false)
    (h5 : ')' ∉ mpBody A S1 B S2 C)
    (hA : containsSub qEnt (A ++ qEnt.dropLast) = false)
    (hS1 : containsSub qEnt (S1 ++ qEnt.dropLast) = false)
    (hB : containsSub qEnt (B ++ qEnt.dropLast) = false)
    (hS2 : containsSub qEnt (S2 ++ qEnt.dropLast) = false)
    (hC : containsSub qEnt (C ++ qEnt.dropLast) = false) :
    get_path_names (mpLST pre M A S1 B S2 C post) M = [C, B, A] := by
  have hrest1 : pysplit (M ++ ['=']) (mpLST pre M A S1 B S2 C post) =
      [pre, ['('] ++ (mpBody A S1 B S2 C ++ (')' :: post))] := by
    have e : mpLST pre M A S1 B S2 C post =
        pre ++ ((M ++ ['=']) ++ (['('] ++ (mpBody A S1 B S2 C ++ (')' :: post)))) := by
      simp [mpLST]
    rw [e, pysplit_append (by simp) pre (['('] ++ (mpBody A S1 B S2 C ++ (')' :: post)))
      (by rw [List.dropLast_concat]; exact h1)]
    rw [pysplit_no_occurrence h2]
  have hdl2 : (M ++ ['=', '(']).dropLast = M ++ ['='] := by
    rw [show M ++ ['=', '('] = (M ++ ['=']) ++ ['('] by simp]
    exact List.dropLast_concat ..
  have hrest2 : pysplit (M ++ ['=', '(']) (mpLST pre M A S1 B S2 C post) =
      [pre, mpBody A S1 B S2 C ++ (')' :: post)] := by
    have e2 : mpLST pre M A S1 B S2 C post =
        pre ++ ((M ++ ['=', '(']) ++ (mpBody A S1 B S2 C ++ (')' :: post))) := by
      simp [mpLST]
    rw [e2, pysplit_append (by simp) pre (mpBody A S1 B S2 C ++ (')' :: post))
      (by rw [hdl2]; exact h3)]
    rw [pysplit_no_occurrence h4]
  have hall : ∀ x ∈ mpBody A S1 B S2 C, (fun y => y != ')') x = true := by
    intro x hx
    simp only [bne_iff_ne]
    exact fun he => h5 (he ▸ hx)
  have hcond : (['('].isPrefixOf ((pysplit ['<'] ((pysplit (M ++ ['='])
      (mpLST pre M A S1 B S2 C post)).getLastD [])).headD [])) = true := by
    rw [hrest1, getLastD_pair, pysplit_head_single]
    simp only [List.cons_append, List.nil_append]
    rw [List.takeWhile_cons, if_pos (show (('(' : Char) != '<') = true from by decide)]
    simp [List.isPrefixOf]
  rw [get_path_names_bracket _ _ hcond]
  rw [hrest2, getLastD_pair, pysplit_head_single,
    takeWhile_append_stop (mpBody A S1 B S2 C) ')' post hall (by decide),
    pysplit_mpBody A S1 B S2 C hA hS1 hB hS2 hC]
  rfl

/-- Witness for C4: marker `"m"`, paths `"a"`, `"b"`, `"c"`, one-space
separators, context text around the definition. -/
theorem claimC4_witness :
    containsSub (toL "m" ++ ['=']) (toL "x " ++ toL "m") = false ∧
      containsSub (toL "m" ++ ['=']) (['('] ++ (mpBody (toL "a") (toL " ") (toL "b") (toL " ") (toL "c") ++ (')' :: toL "<z"))) = false ∧
      containsSub (toL "m" ++ ['=', '(']) (toL "x " ++ (toL "m" ++ ['='])) = false ∧
      containsSub (toL "m" ++ ['=', '(']) (mpBody (toL "a") (toL " ") (toL "b") (toL " ") (toL "c") ++ (')' :: toL "<z")) = false ∧
      ')' ∉ mpBody (toL "a") (toL " ") (toL "b") (toL " ") (toL "c") ∧
      get_path_names (mpLST (toL "x ") (toL "m") (toL "a") (toL " ") (toL "b") (toL " ") (toL "c") (toL "<z")) (toL "m") =
        [toL "c", toL "b", toL "a"] :=
  ⟨by decide, by decide, by decide, by decide, by decide,
    claimC4 (toL "m") (toL "x ") (toL "<z") (toL "a") (toL " ") (toL "b") (toL " ") (toL "c")
      (by decide) (by decide) (by decide) (by decide) (by decide)
      (by decide) (by decide) (by decide) (by decide) (by decide)⟩

/-! Theorems about the Session Adapter (`submit`, `get_vars`,
`scp_tmp_file`, `put_vars`). -/

/-- A baseline concrete environment for witnesses and counterexamples. -/
def dummyEnv : KernelEnv where
  get_response := fun _ => []
  isfile := fun _ => false
  scp_outcome := fun _ => false
  read_sas := fun _ _ => .err []
  uuid := fun _ => toL "t"
  mode := []
  sascfg := { ssh := toL "ssh", identity := none, port := none, host := toL "h" }
  debug := false
  sos_dict := fun _ => .other []

/-- Claim C1 (amended): `submit` hands the buffered input concatenated
with the code to the host callback, extracts the first
`execute_result` HTML body (the empty string if none), and returns that
raw HTML as both the LOG and the LST field — it does not run the body
through the Response Parser (`parse_response` is applied only by
`sessioninfo`). -/
theorem claimC1 (env : KernelEnv) (st : SessionSt) (code : PyStr) :
    (submit env st code).result =
      { LOG := extract_html (env.get_response (st.stdinBuf ++ code)),
        LST := extract_html (env.get_response (st.stdinBuf ++ code)) } := rfl

/-- The environment whose callback answers with one error-styled span. -/
def envC1 : KernelEnv :=
  { dummyEnv with
      get_response := fun _ =>
        [{ kind := toL "execute_result", html := toL "<span class=\"err\">E</span>" }] }

/-- Claim C1 (counterexample): on an error-styled HTML body, the pair
returned by `submit` is the raw HTML in both fields and differs from
the Response Parser's output — `submit` does not parse the body. -/
theorem claimC1_counterexample :
    (submit envC1 { stdinBuf := [] } (toL "x")).result ≠
      parse_response (extract_html (envC1.get_response (toL "x"))) := by
  decide

/-- Claim C9: the code handed to the host callback equals the buffered
writes concatenated in write order followed by the submitted code; the
buffer is empty immediately after being read; and a second submit hands
over only its own code — no buffered code is executed twice. -/
theorem claimC9 (env : KernelEnv) (ws : List PyStr) (code code2 : PyStr) :
    (submit env (writeAll { stdinBuf := [] } ws) code).sent = ws.flatten ++ code ∧
      (submit env (writeAll { stdinBuf := [] } ws) code).st.stdinBuf = [] ∧
      (submit env (submit env (writeAll { stdinBuf := [] } ws) code).st code2).sent = code2 := by
  have hjoin : ∀ (l : List PyStr) (st : SessionSt),
      (writeAll st l).stdinBuf = st.stdinBuf ++ l.flatten := by
    intro l
    induction l with
    | nil => intro st; simp [writeAll]
    | cons w l ih =>
      intro st
      show (writeAll (stdin_write st w) l).stdinBuf = _
      rw [ih (stdin_write st w)]
      simp [stdin_write, List.append_assoc]
  refine ⟨?_, rfl, rfl⟩
  show (writeAll { stdinBuf := [] } ws).stdinBuf ++ code = ws.flatten ++ code
  rw [hjoin]
  simp

/-- Claim C6 (counterexample): with debug mode off, a non-DataFrame
value is skipped with NO warning (and no conversion call) — the
unconditional warning the claim states is not emitted. -/
theorem claimC6_counterexample :
    dummyEnv.debug = false ∧
      (∃ cls, dummyEnv.sos_dict (toL "x") = .other cls) ∧
      get_vars dummyEnv [toL "x"] = { warnings := [], calls := [] } :=
  ⟨rfl, ⟨[], rfl⟩, by decide⟩

theorem get_vars_calls (env : KernelEnv) : ∀ (names : List PyStr),
    (get_vars env names).calls = names.filterMap (fun n =>
      match env.sos_dict n with
      | .df d => some (({ cols := d.cols.map (fun x => .str (labelStr x)), id := d.id } : DataFrame), n)
      | .other _ => none) := by
  intro names
  induction names with
  | nil => rfl
  | cons n rest ih =>
    simp only [get_vars, List.filterMap_cons]
    cases hv : env.sos_dict n with
    | df d => simp only [hv]; rw [ih]
    | other cls =>
      simp only [hv]
      cases hdb : env.debug
      · simp only [Bool.false_eq_true, if_false]; rw [ih]
      · simp only [if_true]; rw [ih]

theorem get_vars_warnings_silent (env : KernelEnv) (hdb : env.debug = false) :
    ∀ (names : List PyStr), (get_vars env names).warnings = [] := by
  intro names
  induction names with
  | nil => rfl
  | cons n rest ih =>
    simp only [get_vars]
    cases hv : env.sos_dict n with
    | df d => simp only [hv]; rw [ih]
    | other cls => simp only [hv, hdb, Bool.false_eq_true, if_false]; rw [ih]

theorem get_vars_warnings_debug (env : KernelEnv) (hdb : env.debug = true) :
    ∀ (names : List PyStr), (get_vars env names).warnings = names.filterMap (fun n =>
      match env.sos_dict n with
      | .other cls => some (nonDFMsg n cls)
      | .df _ => none) := by
  intro names
  induction names with
  | nil => rfl
  | cons n rest ih =>
    simp only [get_vars, List.filterMap_cons]
    cases hv : env.sos_dict n with
    | df d => simp only [hv]; rw [ih]
    | other cls => simp only [hv, hdb, if_true]; rw [ih]

/-- Claim C6 (amended): `get_vars` is total (never raises); its
conversion calls are exactly the DataFrame-valued names with column
labels renamed to string form, and the non-DataFrame warning for a
non-table name is emitted only when debug mode is enabled — with debug
mode off every non-table name is skipped silently, and in no case is a
conversion performed for it. -/
theorem claimC6 (env : KernelEnv) (names : List PyStr) :
    (get_vars env names).calls = names.filterMap (fun n =>
        match env.sos_dict n with
        | .df d => some (({ cols := d.cols.map (fun x => .str (labelStr x)), id := d.id } : DataFrame), n)
        | .other _ => none) ∧
      (get_vars env names).warnings =
        (if env.debug then
          names.filterMap (fun n =>
            match env.sos_dict n with
            | .other cls => some (nonDFMsg n cls)
            | .df _ => none)
        else []) := by
  refine ⟨get_vars_calls env names, ?_⟩
  cases hdb : env.debug
  · rw [get_vars_warnings_silent env hdb names]
    simp
  · rw [get_vars_warnings_debug env hdb names]
    simp

/-- The environment of a remote session whose local system has no
secure-copy executable. -/
def envC2 : KernelEnv :=
  { dummyEnv with
      mode := toL "SSH",
      sascfg := { ssh := toL "/usr/bin/ssh", identity := none, port := none,
                  host := toL "remote" } }

/-- Claim C2 (code bug): when the derived secure-copy executable does
not exist, `scp_tmp_file` evaluates to the tool-missing `RuntimeError`
RETURNED as an ordinary value (`ScpRes.retErr`) instead of raising it —
the caller receives the error object in place of a file path, so the
raise-and-warn path the claim describes cannot happen. -/
theorem claimC2 :
    scp_tmp_file envC2 (toL "/lib/tbl.sas7bdat") (toL "t") =
      .retErr (toL "/usr/bin/scp command not found") := by
  decide

/-- Claim C7: an item name with more than one `.` separator makes the
per-item body raise the naming `ValueError`; the per-item handler
catches it, appends exactly one warning naming the item, leaves the
result mapping unchanged (the item's key is omitted), and the loop
continues with the remaining items. -/
theorem claimC7 (env : KernelEnv) (idx : Nat) (st : PutSt) (item : PyStr)
    (rest : List PyStr) (h : 1 < item.count '.') :
    put_varsAux env idx st (item :: rest) =
      put_varsAux env (idx + 1)
        { st with warnings := st.warnings ++ [failMsg item (namingErrMsg item)] } rest := by
  have hm : '.' ∈ item := List.count_pos_iff.mp (Nat.lt_trans Nat.zero_lt_one h)
  have hstep : putStep env (env.uuid idx) st item =
      { st with warnings := st.warnings ++ [failMsg item (namingErrMsg item)] } := by
    simp only [putStep, itemBody]
    rw [if_pos hm, if_pos h]
  simp only [put_varsAux]
  rw [hstep]

/-- Witness for C7 at item name `"a.b.c"`. -/
theorem claimC7_witness :
    1 < (toL "a.b.c").count '.' ∧
      put_varsAux dummyEnv 0 { buf := [], res := [], warnings := [] } [toL "a.b.c"] =
        put_varsAux dummyEnv 1
          { buf := [], res := [],
            warnings := [failMsg (toL "a.b.c") (namingErrMsg (toL "a.b.c"))] } [] :=
  ⟨by decide, claimC7 dummyEnv 0 { buf := [], res := [], warnings := [] } (toL "a.b.c") []
    (by decide)⟩

/-- Claim C8: any exception escaping one item's processing body is
caught at the per-item boundary: exactly one warning naming the item
and the error is appended, the result mapping is unchanged for that
item, and the remaining items are still processed; `put_varsAux` is a
total function, so `put_vars` itself never raises. -/
theorem claimC8 (env : KernelEnv) (idx : Nat) (st : PutSt) (item : PyStr)
    (rest : List PyStr) (m : PyStr)
    (h : itemBody env (env.uuid idx) st.buf item = .error (.valueError m)) :
    put_varsAux env idx st (item :: rest) =
      put_varsAux env (idx + 1)
        { st with warnings := st.warnings ++ [failMsg item m] } rest := by
  have hstep : putStep env (env.uuid idx) st item =
      { st with warnings := st.warnings ++ [failMsg item m] } := by
    simp only [putStep]
    rw [h]
  simp only [put_varsAux]
  rw [hstep]

/-- Witness for C8: the naming error on item `"x.y.z"` is an exception
escaping the body, and the following item is still processed. -/
theorem claimC8_witness :
    itemBody dummyEnv (dummyEnv.uuid 0)
        ({ buf := [], res := [], warnings := [] } : PutSt).buf (toL "x.y.z") =
      .error (.valueError (namingErrMsg (toL "x.y.z"))) ∧
      put_varsAux dummyEnv 0 { buf := [], res := [], warnings := [] }
          [toL "x.y.z", toL "ok"] =
        put_varsAux dummyEnv 1
          { buf := [], res := [],
            warnings := [failMsg (toL "x.y.z") (namingErrMsg (toL "x.y.z"))] } [toL "ok"] :=
  ⟨by decide, claimC8 dummyEnv 0 { buf := [], res := [], warnings := [] } (toL "x.y.z")
    [toL "ok"] (namingErrMsg (toL "x.y.z")) (by decide)⟩

theorem pyreplace_dot_free : ∀ (s : PyStr), '.' ∉ pyreplace ['.'] ['_'] s := by
  have core : ∀ (f : Nat) (s : PyStr), s.length ≤ f → '.' ∉ pyreplaceF f ['.'] ['_'] s := by
    intro f
    induction f with
    | zero =>
      intro s hf
      have hs : s = [] := List.length_eq_zero.mp (Nat.le_zero.mp hf)
      subst hs
      simp [pyreplaceF]
    | succ f ih =>
      intro s hf
      cases s with
      | nil => simp [pyreplaceF]
      | cons c rest =>
        have hrf : rest.length ≤ f := by simpa using hf
        simp only [pyreplaceF]
        by_cases hp : (['.'] : PyStr).isPrefixOf (c :: rest) = true
        · rw [if_pos hp]
          intro hmem
          rcases List.mem_append.mp hmem with hl | hr
          · simp at hl
          · have hd : (List.drop (List.length (['.'] : PyStr) - 1) rest) = rest := by
              simp
            rw [hd] at hr
            exact ih rest hrf hr
        · rw [if_neg hp]
          have hc : c ≠ '.' := by
            intro he
            subst he
            exact hp (by simp [List.isPrefixOf])
          intro hmem
          rcases List.mem_cons.mp hmem with hl | hr
          · exact hc hl.symm
          · exact ih rest hrf hr
  intro s
  exact core s.length s (Nat.le_refl _)

theorem mem_upsert_keys (key : PyStr) (val : DataFrame) :
    ∀ (l : List (PyStr × DataFrame)) (k : PyStr),
      k ∈ (upsert key val l).map Prod.fst → k = key ∨ k ∈ l.map Prod.fst := by
  intro l
  induction l with
  | nil =>
    intro k h
    simp [upsert] at h
    exact Or.inl h
  | cons p rest ih =>
    obtain ⟨pk, pv⟩ := p
    intro k h
    simp only [upsert] at h
    by_cases he : pk = key
    · rw [if_pos he] at h
      simp only [List.map_cons, List.mem_cons] at h
      rcases h with h | h
      · exact Or.inl h
      · refine Or.inr ?_
        rw [List.map_cons]
        exact List.mem_cons_of_mem _ h
    · rw [if_neg he] at h
      simp only [List.map_cons, List.mem_cons] at h
      rcases h with h | h
      · refine Or.inr ?_
        rw [List.map_cons, h]
        exact List.mem_cons_self _ _
      · rcases ih k h with h' | h'
        · exact Or.inl h'
        · refine Or.inr ?_
          rw [List.map_cons]
          exact List.mem_cons_of_mem _ h'

theorem put_varsAux_keys (env : KernelEnv) :
    ∀ (items : List PyStr) (idx : Nat) (st : PutSt) (k : PyStr),
      k ∈ (put_varsAux env idx st items).res.map Prod.fst →
      k ∈ st.res.map Prod.fst ∨ ∃ item ∈ items, k = pyreplace ['.'] ['_'] item := by
  intro items
  induction items with
  | nil =>
    intro idx st k h
    exact Or.inl h
  | cons item rest ih =>
    intro idx st k h
    have hrec : k ∈ (putStep env (env.uuid idx) st item).res.map Prod.fst ∨
        ∃ it ∈ rest, k = pyreplace ['.'] ['_'] it :=
      ih (idx + 1) (putStep env (env.uuid idx) st item) k h
    rcases hrec with hrec | ⟨it, hit, hk⟩
    · cases hb : itemBody env (env.uuid idx) st.buf item with
      | error e =>
        cases e with
        | valueError m =>
          rw [show putStep env (env.uuid idx) st item =
            { st with warnings := st.warnings ++ [failMsg item m] } from by
              simp only [putStep]; rw [hb]] at hrec
          exact Or.inl hrec
      | ok triple =>
        obtain ⟨buf2, d?, ws⟩ := triple
        cases d? with
        | none =>
          rw [show putStep env (env.uuid idx) st item =
            { buf := buf2, res := st.res, warnings := st.warnings ++ ws } from by
              simp only [putStep]; rw [hb]] at hrec
          exact Or.inl hrec
        | some d =>
          rw [show putStep env (env.uuid idx) st item =
            { buf := buf2, res := upsert (pyreplace ['.'] ['_'] item) d st.res,
              warnings := st.warnings ++ ws } from by
              simp only [putStep]; rw [hb]] at hrec
          rcases mem_upsert_keys (pyreplace ['.'] ['_'] item) d st.res k hrec with h' | h'
          · exact Or.inr ⟨item, List.mem_cons_self _ _, h'⟩
          · exact Or.inl h'
    · exact Or.inr ⟨it, List.mem_cons_of_mem _ hit, hk⟩

/-- Claim C10: every key of the mapping returned by `put_vars` is an
item name with every `.` replaced by `_`, and no key contains a dot,
so a qualified item's original dotted name is never a key. -/
theorem claimC10 (env : KernelEnv) (buf : PyStr) (items : List PyStr) (k : PyStr)
    (h : k ∈ (put_vars env buf items).res.map Prod.fst) :
    (∃ item ∈ items, k = pyreplace ['.'] ['_'] item) ∧ '.' ∉ k := by
  rcases put_varsAux_keys env items 0 { buf := buf, res := [], warnings := [] } k h
    with h' | ⟨it, hit, hk⟩
  · simp at h'
  · exact ⟨⟨it, hit, hk⟩, by rw [hk]; exact pyreplace_dot_free it⟩

/-- The environment of a successful same-filesystem import of
`lib.tbl`: the probe answers with `t=/p<` and the data file
`/p/tbl.sas7bdat` exists and reads fine. -/
def envC10 : KernelEnv :=
  { dummyEnv with
      get_response := fun _ => [{ kind := toL "execute_result", html := toL "t=/p<" }],
      isfile := fun p => decide (p = toL "/p/tbl.sas7bdat"),
      read_sas := fun _ _ => .ok { cols := [], id := 7 } }

/-- Witness for C10: importing `"lib.tbl"` stores the table under key
`"lib_tbl"`. -/
theorem claimC10_witness :
    (toL "lib_tbl") ∈ (put_vars envC10 [] [toL "lib.tbl"]).res.map Prod.fst ∧
      ((∃ item ∈ [toL "lib.tbl"], toL "lib_tbl" = pyreplace ['.'] ['_'] item) ∧
        '.' ∉ toL "lib_tbl") :=
  ⟨by decide, claimC10 envC10 [] [toL "lib.tbl"] (toL "lib_tbl") (by decide)⟩

end SosSas
